import Mathlib

/-!
Verification development for the AI-model-tuning application core
(dataset generation job runner, fine-tune job lifecycle manager,
model evaluation harness).

The definitions below are a shallow embedding of the TypeScript source:

* `src/app/src/app/api/bots/datasets/generate/route.ts`
  (`createExampleHash`, `getAllExistingExampleHashes`, `processGenerationJob`,
  `generateBatch`, `generateFallbackExamples`);
* `src/app/src/app/api/bots/fine-tune/jobs/route.ts` (job submission);
* `src/app/src/app/api/bots/fine-tune/jobs/[job_id]/events/route.ts`
  (status reconciliation, parent-model propagation);
* the model evaluation endpoint (`testModelWithExamples`,
  `calculateSimilarity`, `calculateMetrics`).

Modelling conventions:

* JavaScript strings are Lean `String`s; `String.prototype.trim` /
  `toLowerCase` are modelled character-wise (`jsTrim`, `jsToLower`).
* `localeCompare`-based sorting is modelled by a fixed code-point
  lexicographic order (a deterministic total order, which is all the
  deduplication logic depends on).
* The SHA-256 digest in `createExampleHash` is modelled by the serialized
  canonical form itself: the digest of a string is abstracted as an
  injective function of that string (a collision-free hash), so equality
  of modelled hashes coincides with equality of the hashed canonical
  serializations.
* Database rows are explicit records; `prisma.*.update` is state passing.
* External HTTP calls (OpenAI) are parameters of the embedded functions:
  the generator / chat responses and provider replies are inputs.
* JavaScript numbers used by the claims are modelled exactly: `Math.floor`
  of the 80% split and of the progress percentage are natural-number
  divisions (for the integer ranges reachable here the IEEE-754 double
  computations in the source agree with the exact rational floors), and
  similarity / accuracy values are rationals.
-/

/-- A chat message, as in the `messages` arrays of the source. -/
structure Msg where
  role : String
  content : String
deriving DecidableEq, Repr

/-- A training example: a list of messages (`example.messages`). -/
structure TrainEx where
  messages : List Msg
deriving DecidableEq, Repr

/-- Character-wise model of `String.prototype.toLowerCase`. -/
def jsToLower (s : String) : String := ⟨s.data.map Char.toLower⟩

/-- Character-wise model of `String.prototype.trim`: drop leading and
trailing whitespace. -/
def jsTrim (s : String) : String :=
  ⟨((s.data.dropWhile Char.isWhitespace).reverse.dropWhile Char.isWhitespace).reverse⟩

/-- JSON string escaping used by `JSON.stringify` (the characters that can
occur in this development; other control characters are not produced by the
modelled inputs). -/
def jsonEscapeChar (c : Char) : List Char :=
  if c = '"' then ['\\', '"']
  else if c = '\\' then ['\\', '\\']
  else if c = '\n' then ['\\', 'n']
  else if c = '\r' then ['\\', 'r']
  else if c = '\t' then ['\\', 't']
  else [c]

/-- Escape a string for inclusion in a JSON string literal. -/
def jsonEscape (s : String) : String := ⟨(s.data.map jsonEscapeChar).flatten⟩

/-- Model of `JSON.stringify` applied to one message object. -/
def serializeMsg (m : Msg) : String :=
  "\x7b\"role\":\"" ++ jsonEscape m.role ++ "\",\"content\":\"" ++ jsonEscape m.content ++ "\"\x7d"

/-- Model of `JSON.stringify` applied to an object with a `messages` array. -/
def serializeMessages (ms : List Msg) : String :=
  "\x7b\"messages\":[" ++ String.intercalate "," (ms.map serializeMsg) ++ "]\x7d"

/-- The per-message normalization inside `createExampleHash`:
`content.trim().toLowerCase()`, role unchanged. -/
def normMsg (m : Msg) : Msg := ⟨m.role, jsToLower (jsTrim m.content)⟩

/-- Sort key for the message comparator in `createExampleHash`
(role first, then content). -/
def msgKey (m : Msg) : Lex (List Char × List Char) := toLex (m.role.data, m.content.data)

/-- The comparator of `createExampleHash` (sort by role, then content),
as a total order relation on messages. -/
def msgLe (a b : Msg) : Prop := msgKey a ≤ msgKey b

instance : DecidableRel msgLe := fun a b => inferInstanceAs (Decidable (msgKey a ≤ msgKey b))

instance : IsTotal Msg msgLe := ⟨fun a b => le_total (msgKey a) (msgKey b)⟩

instance : IsTrans Msg msgLe := ⟨fun _ _ _ h1 h2 => le_trans h1 h2⟩

theorem string_data_inj {s t : String} (h : s.data = t.data) : s = t := by
  cases s; cases t; exact congrArg String.mk h

theorem msgKey_inj {a b : Msg} (h : msgKey a = msgKey b) : a = b := by
  have h' : (a.role.data, a.content.data) = (b.role.data, b.content.data) := h
  obtain ⟨h1, h2⟩ := Prod.mk.injEq .. ▸ h'
  cases a; cases b
  simp only [Msg.mk.injEq]
  exact ⟨string_data_inj h1, string_data_inj h2⟩

instance : IsAntisymm Msg msgLe := ⟨fun _ _ h1 h2 => msgKey_inj (le_antisymm h1 h2)⟩

/-- The `sort` call in `createExampleHash` (a deterministic, stable sort
by the comparator). -/
def sortMsgs (ms : List Msg) : List Msg := ms.insertionSort msgLe

/-- Fingerprint function `createExampleHash`: normalize each message (trim + lower-case the
content), sort messages by (role, content), serialize deterministically and
digest. The digest is modelled by the canonical serialization itself (an
injective image of it). -/
def createExampleHash (e : TrainEx) : String :=
  serializeMessages (sortMsgs (e.messages.map normMsg))

theorem sortMsgs_perm (ms : List Msg) : (sortMsgs ms).Perm ms :=
  List.perm_insertionSort msgLe ms

theorem sortMsgs_eq_of_perm {l1 l2 : List Msg} (h : l1.Perm l2) :
    sortMsgs l1 = sortMsgs l2 := by
  refine @List.eq_of_perm_of_sorted Msg msgLe _ _ _ ?_ ?_ ?_
  · exact ((sortMsgs_perm l1).trans h).trans (sortMsgs_perm l2).symm
  · exact List.sorted_insertionSort msgLe l1
  · exact List.sorted_insertionSort msgLe l2

/-- C3: `createExampleHash` is invariant under message reordering combined
with casing / trimmable-whitespace changes of message contents (roles
unchanged): whenever the normalized message lists of two examples are
permutations of each other, the fingerprints coincide. -/
theorem createExampleHash_invariant (e1 e2 : TrainEx)
    (h : (e1.messages.map normMsg).Perm (e2.messages.map normMsg)) :
    createExampleHash e1 = createExampleHash e2 := by
  unfold createExampleHash
  rw [sortMsgs_eq_of_perm h]

/-- Witness for C3: two concrete examples whose messages are reordered and
differ in casing and surrounding whitespace hash identically. -/
theorem createExampleHash_invariant_witness :
    ((TrainEx.mk [⟨"user", "  Hello There "⟩, ⟨"assistant", "Fine!"⟩]).messages.map normMsg).Perm
      ((TrainEx.mk [⟨"assistant", "fine!"⟩, ⟨"user", "hello there"⟩]).messages.map normMsg) ∧
    createExampleHash ⟨[⟨"user", "  Hello There "⟩, ⟨"assistant", "Fine!"⟩]⟩ =
      createExampleHash ⟨[⟨"assistant", "fine!"⟩, ⟨"user", "hello there"⟩]⟩ :=
  ⟨by decide, createExampleHash_invariant _ _ (by decide)⟩

/-- The Dataset row fields touched by the generation job runner
(`prisma.dataset.update` calls in `processGenerationJob`). -/
structure DatasetRec where
  status : String
  progress : Nat
  current_batch : Nat
  total_batches : Nat
  generated_count : Nat
  num_examples : Option Nat
  training_examples_count : Option Nat
  test_examples_count : Option Nat
  content : Option String
  training_content : Option String
  test_content : Option String
  error : Option String
deriving DecidableEq, Repr

/-- First deduplication loop of a batch (`for (const example of batchExamples)`):
skip an example whose fingerprint is in `existingHashes` or in
`currentJobHashes`; otherwise append it and record its hash. -/
def dedupPass (existing : List String) :
    List TrainEx → List String → List TrainEx → List TrainEx × List String
  | [], current, uniq => (uniq, current)
  | ex :: rest, current, uniq =>
    if createExampleHash ex ∈ existing ∨ createExampleHash ex ∈ current then
      dedupPass existing rest current uniq
    else
      dedupPass existing rest (current ++ [createExampleHash ex]) (uniq ++ [ex])

/-- The deduplication loop inside the retry (`for (const example of
additionalExamples)`): same filter, but stop once `batchCount` unique
examples have been collected. -/
def dedupPassCapped (existing : List String) (cap : Nat) :
    List TrainEx → List String → List TrainEx → List TrainEx × List String
  | [], current, uniq => (uniq, current)
  | ex :: rest, current, uniq =>
    if createExampleHash ex ∈ existing ∨ createExampleHash ex ∈ current then
      dedupPassCapped existing cap rest current uniq
    else
      let uniq2 := uniq ++ [ex]
      let current2 := current ++ [createExampleHash ex]
      if cap ≤ uniq2.length then (uniq2, current2)
      else dedupPassCapped existing cap rest current2 uniq2

/-- The retry loop (`while uniqueBatchExamples.length < batchCount &&
attempts < maxRetryAttempts`): regenerate and deduplicate, up to 3 attempts.
`fuel` is the number of attempts still allowed. -/
def retryLoop (gen : Nat → List TrainEx) (existing : List String) (batchCount : Nat) :
    Nat → Nat → List TrainEx → List String → List TrainEx × List String × Nat
  | 0, callIdx, uniq, current => (uniq, current, callIdx)
  | fuel + 1, callIdx, uniq, current =>
    if uniq.length < batchCount then
      let p := dedupPassCapped existing batchCount (gen callIdx) current uniq
      retryLoop gen existing batchCount fuel (callIdx + 1) p.1 p.2
    else (uniq, current, callIdx)

/-- Loop state of the batch loop of `processGenerationJob`: the accumulated
`allExamples`, the per-job hash set `currentJobHashes` (insertion order kept),
the number of `generateBatch` calls made so far, and the persisted row. -/
structure LoopSt where
  allExamples : List TrainEx
  currentJobHashes : List String
  callIdx : Nat
  ds : DatasetRec
deriving DecidableEq, Repr

/-- The batch loop (`for (let batch = 0; batch < job.total_batches; batch++)`).
`gen` yields the (validated) output of the n-th `generateBatch` call; the
per-batch `try/catch` never fires in the model because the embedded
`generateBatch` is total. Progress is
`Math.floor(((batch + 1) / total_batches) * 100)`; for the values reachable
here the double computation agrees with natural division. -/
def batchLoop (gen : Nat → List TrainEx) (existing : List String)
    (target totalBatches : Nat) : Nat → Nat → LoopSt → LoopSt
  | 0, _, st => st
  | fuel + 1, batch, st =>
    let batchCount := min 5 (target - batch * 5)
    if batchCount = 0 then st
    else
      let batchExamples := gen st.callIdx
      let p1 := dedupPass existing batchExamples st.currentJobHashes []
      let p2 := retryLoop gen existing batchCount 3 (st.callIdx + 1) p1.1 p1.2
      let allExamples2 := st.allExamples ++ p2.1
      let progress := (batch + 1) * 100 / totalBatches
      batchLoop gen existing target totalBatches fuel (batch + 1)
        { allExamples := allExamples2
          currentJobHashes := p2.2.1
          callIdx := p2.2.2
          ds := { st.ds with
                    current_batch := batch + 1
                    progress := progress
                    generated_count := allExamples2.length } }

/-- Model of `String(msg.content || '').trim()` with unchanged role, from
`convertToJSONL`. -/
def cleanMsg (m : Msg) : Msg := ⟨m.role, jsTrim m.content⟩

/-- The "clean example" built inside `convertToJSONL`: trim every content
and drop messages whose trimmed content is empty. -/
def cleanExample (e : TrainEx) : TrainEx :=
  ⟨(e.messages.map cleanMsg).filter (fun m => 0 < m.content.length)⟩

/-- The acceptance test of `convertToJSONL`: at least one `user` message, at
least one `assistant` message, and at least 2 messages. -/
def validCleaned (e : TrainEx) : Bool :=
  e.messages.any (fun m => m.role == "user") &&
  e.messages.any (fun m => m.role == "assistant") &&
  decide (2 ≤ e.messages.length)

/-- One JSONL line of `convertToJSONL`, when the cleaned example survives. -/
def exampleLine (e : TrainEx) : Option String :=
  let ce := cleanExample e
  if validCleaned ce then some (serializeMessages ce.messages) else none

/-- Serializer `convertToJSONL`: clean, filter, serialize, join with newlines. -/
def convertToJSONL (exs : List TrainEx) : String :=
  String.intercalate "\n" (exs.filterMap exampleLine)

/-- Round-trip check `validateJSONL`: false on empty/whitespace content; every produced line
is a `JSON.stringify` result and hence always parses, so only the emptiness
test remains. -/
def validateJSONL (jsonl : String) : Bool := decide ((jsTrim jsonl).data ≠ [])

/-- Model of `Math.floor(n * 0.8)`. For every example count reachable here
(`n ≤ 100000`, far below 2^53) the IEEE-754 double computation equals the
exact rational floor, which is natural division `4 * n / 5`. -/
def floor08 (n : Nat) : Nat := 4 * n / 5

/-- Successful outcome of one run of the generation job runner. -/
structure GenOutcome where
  accepted : List TrainEx
  currentHashes : List String
  training : List TrainEx
  test : List TrainEx
  dataset : DatasetRec
deriving DecidableEq, Repr

/-- The body of `processGenerationJob` (everything inside the top-level
`try`). Inputs: `gen` (the outputs of the successive `generateBatch` calls),
`existing` (the set returned by `getAllExistingExampleHashes`, loaded once at
the start), the stored row `ds0` and the `target_examples` metadata value.
An uncaught exception is an `Except.error` carrying the thrown message and
the row as last persisted. The structural validation filter over
`allExamples` (lines 423-444) is vacuous in the typed embedding, so
`validatedExamples = allExamples`. The batch loop starts from the row as
updated to `processing`, with empty accumulators. -/
def loopResult (gen : Nat → List TrainEx) (existing : List String)
    (ds0 : DatasetRec) (target : Nat) : LoopSt :=
  batchLoop gen existing target ds0.total_batches ds0.total_batches 0
    { allExamples := [], currentJobHashes := [], callIdx := 0,
      ds := { ds0 with status := "processing" } }

/-- Continuation of the body of `processGenerationJob` after the batch loop:
validation, 80/20 split, JSONL conversion and the final `completed` update;
thrown errors are `Except.error` values carrying the message and the row as
last persisted. -/
def runGenerationBody (gen : Nat → List TrainEx) (existing : List String)
    (ds0 : DatasetRec) (target : Nat) : Except (String × DatasetRec) GenOutcome :=
  let st := loopResult gen existing ds0 target
  let validatedExamples := st.allExamples
  if validatedExamples.length = 0 then
    .error ("No valid examples generated after validation", st.ds)
  else
    let trainingCount := floor08 validatedExamples.length
    let trainingExamples := validatedExamples.take trainingCount
    let testExamples := validatedExamples.drop trainingCount
    let fullContent := convertToJSONL validatedExamples
    let trainingContent := convertToJSONL trainingExamples
    let testContent := convertToJSONL testExamples
    if validateJSONL fullContent then
      .ok { accepted := validatedExamples
            currentHashes := st.currentJobHashes
            training := trainingExamples
            test := testExamples
            dataset := { st.ds with
                           content := some fullContent
                           training_content := some trainingContent
                           test_content := some testContent
                           num_examples := some validatedExamples.length
                           training_examples_count := some trainingExamples.length
                           test_examples_count := some testExamples.length
                           status := "completed"
                           progress := 100
                           generated_count := validatedExamples.length } }
    else .error ("Generated JSONL content is invalid", st.ds)

/-- Runner `processGenerationJob`: run the body; the top-level `catch` marks the
job `failed` and stores the captured error message. -/
def processGenerationJob (gen : Nat → List TrainEx) (existing : List String)
    (ds0 : DatasetRec) (target : Nat) : DatasetRec :=
  match runGenerationBody gen existing ds0 target with
  | .ok o => o.dataset
  | .error (msg, d) => { d with status := "failed", error := some msg }

/-- Invariant of the deduplication state: `current` is exactly the list of
fingerprints of the examples accepted so far (`pre` from earlier batches,
`uniq` from the current pass), these fingerprints are pairwise distinct, and
none of them is in the global `existing` set. -/
def GenInv (existing : List String) (pre uniq : List TrainEx) (current : List String) : Prop :=
  current = (pre ++ uniq).map createExampleHash ∧
  current.Nodup ∧
  ∀ h ∈ current, h ∉ existing

theorem GenInv_step {existing : List String} {pre uniq : List TrainEx} {current : List String}
    (hInv : GenInv existing pre uniq current) (ex : TrainEx)
    (hn : createExampleHash ex ∉ existing ∧ createExampleHash ex ∉ current) :
    GenInv existing pre (uniq ++ [ex]) (current ++ [createExampleHash ex]) := by
  obtain ⟨h1, h2, h3⟩ := hInv
  refine ⟨?_, ?_, ?_⟩
  · simp [h1, List.map_append]
  · simp [List.nodup_append, h2, hn.2]
  · intro x hx
    rcases List.mem_append.mp hx with hx | hx
    · exact h3 x hx
    · simp only [List.mem_singleton] at hx
      exact hx ▸ hn.1

theorem dedupPass_inv {existing : List String} {pre : List TrainEx} :
    ∀ (exs : List TrainEx) (current : List String) (uniq : List TrainEx),
      GenInv existing pre uniq current →
      GenInv existing pre (dedupPass existing exs current uniq).1
        (dedupPass existing exs current uniq).2 := by
  intro exs
  induction exs with
  | nil => intro current uniq h; simpa [dedupPass] using h
  | cons ex rest ih =>
    intro current uniq h
    rw [dedupPass]
    split
    · exact ih _ _ h
    · rename_i hn
      push_neg at hn
      exact ih _ _ (GenInv_step h ex hn)

theorem dedupPassCapped_inv {existing : List String} {cap : Nat} {pre : List TrainEx} :
    ∀ (exs : List TrainEx) (current : List String) (uniq : List TrainEx),
      GenInv existing pre uniq current →
      GenInv existing pre (dedupPassCapped existing cap exs current uniq).1
        (dedupPassCapped existing cap exs current uniq).2 := by
  intro exs
  induction exs with
  | nil => intro current uniq h; simpa [dedupPassCapped] using h
  | cons ex rest ih =>
    intro current uniq h
    rw [dedupPassCapped]
    split
    · exact ih _ _ h
    · rename_i hn
      push_neg at hn
      dsimp only
      split
      · exact GenInv_step h ex hn
      · exact ih _ _ (GenInv_step h ex hn)

theorem retryLoop_inv {gen : Nat → List TrainEx} {existing : List String}
    {batchCount : Nat} {pre : List TrainEx} :
    ∀ (fuel callIdx : Nat) (uniq : List TrainEx) (current : List String),
      GenInv existing pre uniq current →
      GenInv existing pre (retryLoop gen existing batchCount fuel callIdx uniq current).1
        (retryLoop gen existing batchCount fuel callIdx uniq current).2.1 := by
  intro fuel
  induction fuel with
  | zero => intro callIdx uniq current h; simpa [retryLoop] using h
  | succ fuel ih =>
    intro callIdx uniq current h
    rw [retryLoop]
    split
    · exact ih _ _ _ (dedupPassCapped_inv _ _ _ h)
    · exact h

theorem GenInv_shift {existing : List String} {pre uniq : List TrainEx} {current : List String}
    (h : GenInv existing pre uniq current) : GenInv existing (pre ++ uniq) [] current := by
  simpa [GenInv] using h

theorem batchLoop_inv {gen : Nat → List TrainEx} {existing : List String}
    {target totalBatches : Nat} :
    ∀ (fuel batch : Nat) (st : LoopSt),
      GenInv existing st.allExamples [] st.currentJobHashes →
      GenInv existing (batchLoop gen existing target totalBatches fuel batch st).allExamples []
        (batchLoop gen existing target totalBatches fuel batch st).currentJobHashes := by
  intro fuel
  induction fuel with
  | zero => intro batch st h; simpa [batchLoop] using h
  | succ fuel ih =>
    intro batch st h
    rw [batchLoop]
    split
    · exact h
    · exact ih _ _ (GenInv_shift (retryLoop_inv _ _ _ _ (dedupPass_inv _ _ _ h)))

theorem loopResult_inv (gen : Nat → List TrainEx) (existing : List String)
    (ds0 : DatasetRec) (target : Nat) :
    GenInv existing (loopResult gen existing ds0 target).allExamples []
      (loopResult gen existing ds0 target).currentJobHashes :=
  batchLoop_inv _ _ _ (by simp [GenInv])

/-- Shape of a successful run of the generation-job body: the outcome is
built from the batch-loop result, the split is `take`/`drop` at
`floor08`, and the persisted row carries the counts and `completed`. -/
theorem runGenerationBody_ok_elim {gen : Nat → List TrainEx} {existing : List String}
    {ds0 : DatasetRec} {target : Nat} {o : GenOutcome}
    (h : runGenerationBody gen existing ds0 target = .ok o) :
    o.accepted = (loopResult gen existing ds0 target).allExamples ∧
    o.currentHashes = (loopResult gen existing ds0 target).currentJobHashes ∧
    o.training = o.accepted.take (floor08 o.accepted.length) ∧
    o.test = o.accepted.drop (floor08 o.accepted.length) ∧
    o.dataset.status = "completed" ∧
    o.dataset.num_examples = some o.accepted.length ∧
    o.dataset.training_examples_count = some (o.accepted.take (floor08 o.accepted.length)).length ∧
    o.dataset.test_examples_count = some (o.accepted.drop (floor08 o.accepted.length)).length ∧
    o.accepted.length ≠ 0 := by
  unfold runGenerationBody at h
  dsimp only at h
  split at h
  · exact absurd h (by simp)
  · split at h
    · rename_i hzero _
      injection h with h
      subst h
      simp_all
    · exact absurd h (by simp)

/-- C1 (amended): in every run of the generation job runner that reaches the
completed state, the fingerprints (`createExampleHash`) of the examples
accepted into the accumulated list are pairwise distinct, and none of them
is in the global set returned by `getAllExistingExampleHashes` loaded at the
start of the run. (Over the examples as *written* into `content` the claim
fails, because the JSONL cleaning step may drop whitespace-only messages and
collapse two accepted examples: see the counterexample.) -/
theorem generation_accepted_unique (gen : Nat → List TrainEx) (existing : List String)
    (ds0 : DatasetRec) (target : Nat) (o : GenOutcome)
    (h : runGenerationBody gen existing ds0 target = .ok o) :
    o.dataset.status = "completed" ∧
    (o.accepted.map createExampleHash).Nodup ∧
    ∀ e ∈ o.accepted, createExampleHash e ∉ existing := by
  obtain ⟨hacc, hcur, -, -, hstat, -⟩ := runGenerationBody_ok_elim h
  obtain ⟨h1, h2, h3⟩ := loopResult_inv gen existing ds0 target
  have h1' : (loopResult gen existing ds0 target).currentJobHashes
      = (loopResult gen existing ds0 target).allExamples.map createExampleHash := by
    simpa using h1
  refine ⟨hstat, ?_, ?_⟩
  · rw [hacc, ← h1']
    exact h2
  · intro e he
    apply h3
    rw [h1']
    exact List.mem_map_of_mem _ (hacc ▸ he)

def w1Ex : TrainEx := ⟨[⟨"user", "hi"⟩, ⟨"assistant", "yo"⟩]⟩

def w1Ds : DatasetRec :=
  ⟨"pending", 0, 0, 1, 0, none, none, none, none, none, none, none⟩

def w1Out : GenOutcome :=
  { accepted := [w1Ex]
    currentHashes := [createExampleHash w1Ex]
    training := []
    test := [w1Ex]
    dataset :=
      { status := "completed", progress := 100, current_batch := 1, total_batches := 1
        generated_count := 1, num_examples := some 1, training_examples_count := some 0
        test_examples_count := some 1
        content := some (convertToJSONL [w1Ex])
        training_content := some (convertToJSONL [])
        test_content := some (convertToJSONL [w1Ex])
        error := none } }

/-- Witness for C1: a one-example run evaluates to a concrete completed
outcome with distinct accepted fingerprints, none in the (empty) global set. -/
theorem generation_accepted_unique_witness :
    runGenerationBody (fun _ => [w1Ex]) [] w1Ds 1 = .ok w1Out ∧
    ((w1Out.accepted.map createExampleHash).Nodup ∧
      ∀ e ∈ w1Out.accepted, createExampleHash e ∉ ([] : List String)) :=
  ⟨by rfl, (generation_accepted_unique (fun _ => [w1Ex]) [] w1Ds 1 w1Out (by rfl)).2⟩

def cexA : TrainEx := ⟨[⟨"user", "hi"⟩, ⟨"assistant", "yo"⟩, ⟨"system", " "⟩]⟩

def cexB : TrainEx := ⟨[⟨"user", "hi"⟩, ⟨"assistant", "yo"⟩]⟩

def cexDs : DatasetRec :=
  ⟨"pending", 0, 0, 1, 0, none, none, none, none, none, none, none⟩

def cexRun : DatasetRec := processGenerationJob (fun _ => [cexA, cexB]) [] cexDs 2

/-- Counterexample to C1 as stated: a run that completes and whose persisted
`content` holds two lines that are the same serialized example — hence two
written examples with the same fingerprint. The first accepted example
carries a whitespace-only `system` message, so its raw fingerprint differs
from the second's (both are accepted by the dedup filter), but the JSONL
cleaning drops that message and writes identical lines. -/
theorem generation_written_duplicate_cex :
    cexRun.status = "completed" ∧
    cexRun.content = some (serializeMessages [⟨"user", "hi"⟩, ⟨"assistant", "yo"⟩] ++ "\n" ++
      serializeMessages [⟨"user", "hi"⟩, ⟨"assistant", "yo"⟩]) ∧
    createExampleHash (cleanExample cexA) = createExampleHash (cleanExample cexB) ∧
    createExampleHash cexA ≠ createExampleHash cexB := by
  refine ⟨by decide, by decide, by decide, by decide⟩

/-- C2: every completed generation run persists
`training_examples_count + test_examples_count = num_examples` with
`training_examples_count = floor(0.8 * num_examples)`, and the training and
test slices are the order-preserving prefix/suffix of the accumulated
examples at that index. -/
theorem generation_split_80_20 (gen : Nat → List TrainEx) (existing : List String)
    (ds0 : DatasetRec) (target : Nat) (o : GenOutcome)
    (h : runGenerationBody gen existing ds0 target = .ok o) :
    1 ≤ o.accepted.length ∧
    o.dataset.num_examples = some o.accepted.length ∧
    o.dataset.training_examples_count = some (floor08 o.accepted.length) ∧
    o.dataset.test_examples_count = some (o.accepted.length - floor08 o.accepted.length) ∧
    floor08 o.accepted.length + (o.accepted.length - floor08 o.accepted.length)
      = o.accepted.length ∧
    floor08 o.accepted.length = ⌊(o.accepted.length : ℚ) * (8 / 10)⌋₊ ∧
    o.training = o.accepted.take (floor08 o.accepted.length) ∧
    o.test = o.accepted.drop (floor08 o.accepted.length) := by
  obtain ⟨-, -, htr, hte, -, hnum, htc, htec, hnz⟩ := runGenerationBody_ok_elim h
  have hle : floor08 o.accepted.length ≤ o.accepted.length := by
    unfold floor08; omega
  have hfl : floor08 o.accepted.length = ⌊(o.accepted.length : ℚ) * (8 / 10)⌋₊ := by
    have hq : (o.accepted.length : ℚ) * (8 / 10)
        = ((4 * o.accepted.length : ℕ) : ℚ) / ((5 : ℕ) : ℚ) := by push_cast; ring
    rw [hq, Nat.floor_div_nat, Nat.floor_natCast]
    rfl
  refine ⟨by omega, hnum, ?_, ?_, by omega, hfl, htr, hte⟩
  · rw [htc, List.length_take, min_eq_left hle]
  · rw [htec, List.length_drop]

/-- Witness for C2: the one-example completed run instantiates the split
theorem (`floor08 1 = 0`, so 0 training and 1 test example). -/
theorem generation_split_80_20_witness :
    1 ≤ w1Out.accepted.length ∧
    w1Out.dataset.num_examples = some w1Out.accepted.length ∧
    w1Out.dataset.training_examples_count = some (floor08 w1Out.accepted.length) ∧
    w1Out.dataset.test_examples_count
      = some (w1Out.accepted.length - floor08 w1Out.accepted.length) ∧
    floor08 w1Out.accepted.length + (w1Out.accepted.length - floor08 w1Out.accepted.length)
      = w1Out.accepted.length ∧
    floor08 w1Out.accepted.length = ⌊(w1Out.accepted.length : ℚ) * (8 / 10)⌋₊ ∧
    w1Out.training = w1Out.accepted.take (floor08 w1Out.accepted.length) ∧
    w1Out.test = w1Out.accepted.drop (floor08 w1Out.accepted.length) :=
  generation_split_80_20 (fun _ => [w1Ex]) [] w1Ds 1 w1Out (by rfl)

theorem processGenerationJob_error_eq (gen : Nat → List TrainEx) (existing : List String)
    (ds0 : DatasetRec) (target : Nat) (msg : String) (d : DatasetRec)
    (hb : runGenerationBody gen existing ds0 target = .error (msg, d)) :
    processGenerationJob gen existing ds0 target
      = { d with status := "failed", error := some msg } := by
  unfold processGenerationJob
  rw [hb]

theorem processGenerationJob_ok_eq (gen : Nat → List TrainEx) (existing : List String)
    (ds0 : DatasetRec) (target : Nat) (o : GenOutcome)
    (hb : runGenerationBody gen existing ds0 target = .ok o) :
    processGenerationJob gen existing ds0 target = o.dataset := by
  unfold processGenerationJob
  rw [hb]

/-- C7: after the generation job runner returns control, the job row is in a
terminal status (`completed` or `failed`), never `processing`; and whenever
the body threw (any unhandled exception), the row is `failed` and its error
object carries the captured message. -/
theorem processGenerationJob_never_processing (gen : Nat → List TrainEx)
    (existing : List String) (ds0 : DatasetRec) (target : Nat) :
    ((processGenerationJob gen existing ds0 target).status = "completed" ∨
      (processGenerationJob gen existing ds0 target).status = "failed") ∧
    ∀ msg d, runGenerationBody gen existing ds0 target = .error (msg, d) →
      (processGenerationJob gen existing ds0 target).status = "failed" ∧
      (processGenerationJob gen existing ds0 target).error = some msg := by
  refine ⟨?_, ?_⟩
  · rcases hb : runGenerationBody gen existing ds0 target with p | o
    · obtain ⟨msg, d⟩ := p
      rw [processGenerationJob_error_eq gen existing ds0 target msg d hb]
      exact Or.inr rfl
    · rw [processGenerationJob_ok_eq gen existing ds0 target o hb]
      exact Or.inl (runGenerationBody_ok_elim hb).2.2.2.2.1
  · intro msg d hb
    rw [processGenerationJob_error_eq gen existing ds0 target msg d hb]
    exact ⟨rfl, rfl⟩

def w7D : DatasetRec :=
  { status := "processing", progress := 100, current_batch := 1, total_batches := 1
    generated_count := 0, num_examples := none, training_examples_count := none
    test_examples_count := none, content := none, training_content := none
    test_content := none, error := none }

/-- Witness for C7: a run whose generator yields nothing throws
"No valid examples generated after validation" and ends `failed` with that
message stored. -/
theorem processGenerationJob_never_processing_witness :
    (processGenerationJob (fun _ => []) [] w1Ds 1).status = "failed" ∧
    (processGenerationJob (fun _ => []) [] w1Ds 1).error
      = some "No valid examples generated after validation" :=
  (processGenerationJob_never_processing (fun _ => []) [] w1Ds 1).2
    "No valid examples generated after validation" w7D (by rfl)

/-- JavaScript `v || dflt` for an optional string: `undefined`/`null` and
the empty string are falsy. -/
def jsOr (v : Option String) (dflt : String) : String :=
  match v with
  | none => dflt
  | some s => if s = "" then dflt else s

/-- JavaScript falsiness of an optional string value. -/
def jsFalsy (v : Option String) : Bool :=
  match v with
  | none => true
  | some s => s == ""

/-- Helper for `String.prototype.split(/\s+/)`: walk the characters; in
token mode (`some cur`) accumulate until whitespace, in separator mode
(`none`) skip the whitespace run. Leading or trailing whitespace yields an
empty boundary token, exactly as in JavaScript. -/
def splitWsAux : List Char → Option (List Char) → List String
  | [], some cur => [String.mk cur.reverse]
  | [], none => [""]
  | c :: rest, some cur =>
    if c.isWhitespace then String.mk cur.reverse :: splitWsAux rest none
    else splitWsAux rest (some (c :: cur))
  | c :: rest, none =>
    if c.isWhitespace then splitWsAux rest none
    else splitWsAux rest (some [c])

/-- Model of `s.split(/\s+/)` as in JavaScript (`"".split` gives `[""]`, boundary
whitespace gives empty tokens). -/
def jsSplitWs (s : String) : List String := splitWsAux s.data (some [])

/-- Model of `new Set(str.toLowerCase().split(/\s+/))` from `calculateSimilarity`:
the distinct tokens (JavaScript sets keep insertion order; only membership
and size are used). -/
def wordSet (s : String) : List String := (jsSplitWs (jsToLower s)).dedup

/-- Intersection and union sizes of the two token sets of
`calculateSimilarity`. -/
def simParts (str1 str2 : String) : Nat × Nat :=
  let set1 := wordSet str1
  let set2 := wordSet str2
  ((set1.filter (fun x => x ∈ set2)).length, ((set1 ++ set2).dedup).length)

/-- Similarity function `calculateSimilarity`: token-set overlap `intersection.size / union.size`
(0 when the union is empty, which cannot actually happen since the split
never returns an empty array). -/
def calculateSimilarity (str1 str2 : String) : ℚ :=
  let p := simParts str1 str2
  if 0 < p.2 then (p.1 : ℚ) / p.2 else 0

/-- Refinement reference for C9, following the words of the spec: the
lower-cased whitespace-tokenized *words* of a text — the maximal nonempty
whitespace-free runs, i.e. the split tokens with boundary artifacts
removed. -/
def specWords (s : String) : List String :=
  (jsSplitWs (jsToLower s)).filter (fun w => w ≠ "")

/-- Intersection and union sizes of the two word sets of `specJaccard`. -/
def specParts (str1 str2 : String) : Nat × Nat :=
  let w1 := (specWords str1).dedup
  let w2 := (specWords str2).dedup
  ((w1.filter (fun x => x ∈ w2)).length, ((w1 ++ w2).dedup).length)

/-- Refinement reference for C9, following the words of the spec: the
Jaccard coefficient (intersection size over union size) of the lower-cased
whitespace-tokenized word sets (0 when both are empty). -/
def specJaccard (str1 str2 : String) : ℚ :=
  let p := specParts str1 str2
  if 0 < p.2 then (p.1 : ℚ) / p.2 else 0

/-- Outcome of one chat-completion call in `testModelWithExamples`:
`ok content` is a 200 response (`content` may be absent), `fail` is a
non-200 response or a thrown error. -/
inductive ChatResp where
  | ok (content : Option String)
  | fail
deriving DecidableEq, Repr

/-- One element of the `results` array of `testModelWithExamples`. -/
structure TestResult where
  input : String
  expected : String
  predicted : String
  correct : Bool
  similarity : ℚ
deriving DecidableEq, Repr

/-- The loop of `testModelWithExamples`: examples without both a `user` and
an `assistant` message are skipped (no call made); a failed call records an
incorrect zero-similarity result; otherwise the similarity against the
expected assistant text decides correctness at the 0.7 threshold.
`k` counts the chat-completion calls made so far. -/
def testModelAux (resp : Nat → ChatResp) : List TrainEx → Nat → List TestResult
  | [], _ => []
  | e :: rest, k =>
    match e.messages.find? (fun m => m.role == "user"),
          e.messages.find? (fun m => m.role == "assistant") with
    | some um, some am =>
      let r := match resp k with
        | .ok c =>
          let predicted := jsOr c ""
          let similarity := calculateSimilarity am.content predicted
          TestResult.mk um.content am.content predicted
            (decide ((7 : ℚ)/10 ≤ similarity)) similarity
        | .fail => TestResult.mk um.content am.content "" false 0
      r :: testModelAux resp rest (k + 1)
    | _, _ => testModelAux resp rest k

/-- Evaluator `testModelWithExamples`: run every test example through the model. -/
def testModelWithExamples (examples : List TrainEx) (resp : Nat → ChatResp) :
    List TestResult :=
  testModelAux resp examples 0

/-- The aggregate metrics computed by `calculateMetrics`. The source's
`recall` field is called `recallScore` here (the source name collides with a
reserved word). The perplexity output (a mean of `-Math.log(similarity)`
values, a transcendental function) and the `detailed` similarity histogram
are not used by any claim and are not modelled. -/
structure Metrics where
  accuracy : ℚ
  precision : ℚ
  recallScore : ℚ
  f1Score : ℚ
  tp : Nat
  fp : Nat
  fn : Nat
  tn : Nat
  correctCount : Nat
deriving DecidableEq, Repr

/-- Aggregation `calculateMetrics`: accuracy is `correct / total`; the contingency
counts cross the 0.7 similarity threshold with the stored `correct` flag
(`tp`: similarity at or above threshold, `fp`: below threshold but marked
correct, `fn`: at or above threshold but marked incorrect); precision,
recall and F1 fall back to 0 when their denominator is 0. All-zero metrics
on an empty result list. -/
def calculateMetrics (testResults : List TestResult) : Metrics :=
  let total := testResults.length
  if total = 0 then ⟨0, 0, 0, 0, 0, 0, 0, 0, 0⟩
  else
    let correct := (testResults.filter (fun r => r.correct)).length
    let accuracy := (correct : ℚ) / total
    let tp := (testResults.filter (fun r => decide ((7 : ℚ)/10 ≤ r.similarity))).length
    let fp := (testResults.filter (fun r => decide (r.similarity < (7 : ℚ)/10) && r.correct)).length
    let fn := (testResults.filter (fun r => decide ((7 : ℚ)/10 ≤ r.similarity) && !r.correct)).length
    let precision := if 0 < tp + fp then (tp : ℚ) / ((tp + fp : Nat) : ℚ) else 0
    let recallV := if 0 < tp + fn then (tp : ℚ) / ((tp + fn : Nat) : ℚ) else 0
    let f1Score := if 0 < precision + recallV
      then 2 * precision * recallV / (precision + recallV) else 0
    ⟨accuracy, precision, recallV, f1Score, tp, fp, fn, total - tp - fp - fn, correct⟩

theorem testModelAux_correct_eq (resp : Nat → ChatResp) :
    ∀ (es : List TrainEx) (k : Nat) (r : TestResult), r ∈ testModelAux resp es k →
      r.correct = decide ((7 : ℚ)/10 ≤ r.similarity) := by
  intro es
  induction es with
  | nil => intro k r hr; simp [testModelAux] at hr
  | cons e rest ih =>
    intro k r hr
    rw [testModelAux] at hr
    cases h1 : e.messages.find? (fun m => m.role == "user") with
    | none => rw [h1] at hr; exact ih _ _ hr
    | some um =>
      cases h2 : e.messages.find? (fun m => m.role == "assistant") with
      | none => rw [h1, h2] at hr; exact ih _ _ hr
      | some am =>
        rw [h1, h2] at hr
        dsimp only at hr
        cases hk : resp k with
        | ok c =>
          rw [hk] at hr
          rcases List.mem_cons.mp hr with h | h
          · subst h; rfl
          · exact ih _ _ h
        | fail =>
          rw [hk] at hr
          rcases List.mem_cons.mp hr with h | h
          · subst h
            have hq : ¬ ((7 : ℚ)/10 ≤ 0) := by norm_num
            simpa using (decide_eq_false hq).symm
          · exact ih _ _ h

/-- C10: for the results produced by `testModelWithExamples` (the `correct`
flag being exactly the 0.7-threshold test), `calculateMetrics` always yields
`fp = 0` and `fn = 0`, and precision, recall and F1 are all 1 as soon as one
result reaches the threshold and all 0 otherwise — these metrics carry no
information beyond whether any example passed. -/
theorem calculateMetrics_confusion_degenerate (examples : List TrainEx)
    (resp : Nat → ChatResp) (hne : testModelWithExamples examples resp ≠ []) :
    (calculateMetrics (testModelWithExamples examples resp)).fp = 0 ∧
    (calculateMetrics (testModelWithExamples examples resp)).fn = 0 ∧
    ((∃ r ∈ testModelWithExamples examples resp, (7 : ℚ)/10 ≤ r.similarity) →
      (calculateMetrics (testModelWithExamples examples resp)).precision = 1 ∧
      (calculateMetrics (testModelWithExamples examples resp)).recallScore = 1 ∧
      (calculateMetrics (testModelWithExamples examples resp)).f1Score = 1) ∧
    ((∀ r ∈ testModelWithExamples examples resp, ¬ ((7 : ℚ)/10 ≤ r.similarity)) →
      (calculateMetrics (testModelWithExamples examples resp)).precision = 0 ∧
      (calculateMetrics (testModelWithExamples examples resp)).recallScore = 0 ∧
      (calculateMetrics (testModelWithExamples examples resp)).f1Score = 0) := by
  have hc : ∀ r ∈ testModelWithExamples examples resp,
      r.correct = decide ((7 : ℚ)/10 ≤ r.similarity) :=
    fun r hr => testModelAux_correct_eq resp examples 0 r hr
  have htot : ¬ ((testModelWithExamples examples resp).length = 0) := by
    simpa [List.length_eq_zero] using hne
  have hfp : ((testModelWithExamples examples resp).filter
      (fun r => decide (r.similarity < (7 : ℚ)/10) && r.correct)) = [] := by
    rw [List.filter_eq_nil]
    intro r hr
    rw [hc r hr]
    by_cases hs : (7 : ℚ)/10 ≤ r.similarity
    · simp [not_lt.mpr hs]
    · simp [hs]
  have hfn : ((testModelWithExamples examples resp).filter
      (fun r => decide ((7 : ℚ)/10 ≤ r.similarity) && !r.correct)) = [] := by
    rw [List.filter_eq_nil]
    intro r hr
    rw [hc r hr]
    by_cases hs : (7 : ℚ)/10 ≤ r.similarity
    · simp [hs]
    · simp [hs]
  unfold calculateMetrics
  rw [if_neg htot]
  dsimp only
  rw [hfp, hfn]
  refine ⟨rfl, rfl, ?_, ?_⟩
  · rintro ⟨r, hr, hsim⟩
    have htp : 0 < ((testModelWithExamples examples resp).filter
        (fun r => decide ((7 : ℚ)/10 ≤ r.similarity))).length := by
      refine List.length_pos.mpr (List.ne_nil_of_mem (List.mem_filter.mpr ⟨hr, ?_⟩))
      exact decide_eq_true hsim
    have htp0 : (((testModelWithExamples examples resp).filter
        (fun r => decide ((7 : ℚ)/10 ≤ r.similarity))).length : ℚ) ≠ 0 := by
      exact_mod_cast Nat.pos_iff_ne_zero.mp htp
    constructor
    · simp only [List.length_nil, Nat.add_zero, htp, if_pos]
      rw [div_self htp0]
    constructor
    · simp only [List.length_nil, Nat.add_zero, htp, if_pos]
      rw [div_self htp0]
    · simp only [List.length_nil, Nat.add_zero, htp, if_pos]
      rw [div_self htp0]
      norm_num
  · intro hall
    have htp : ((testModelWithExamples examples resp).filter
        (fun r => decide ((7 : ℚ)/10 ≤ r.similarity))) = [] := by
      rw [List.filter_eq_nil]
      intro r hr
      simpa using hall r hr
    rw [htp]
    norm_num

/-- Witness for C10: a single failed-call run (one result, similarity 0)
instantiates the degenerate-metrics theorem: no false positives/negatives
and all three derived metrics are 0. -/
theorem calculateMetrics_confusion_degenerate_witness :
    (calculateMetrics (testModelWithExamples [w1Ex] (fun _ => ChatResp.fail))).fp = 0 ∧
    (calculateMetrics (testModelWithExamples [w1Ex] (fun _ => ChatResp.fail))).fn = 0 ∧
    (calculateMetrics (testModelWithExamples [w1Ex] (fun _ => ChatResp.fail))).precision = 0 ∧
    (calculateMetrics (testModelWithExamples [w1Ex] (fun _ => ChatResp.fail))).recallScore = 0 ∧
    (calculateMetrics (testModelWithExamples [w1Ex] (fun _ => ChatResp.fail))).f1Score = 0 := by
  have h1 : w1Ex.messages.find? (fun m => m.role == "user") = some ⟨"user", "hi"⟩ := by decide
  have h2 : w1Ex.messages.find? (fun m => m.role == "assistant") = some ⟨"assistant", "yo"⟩ := by
    decide
  have hres : testModelWithExamples [w1Ex] (fun _ => ChatResp.fail)
      = [⟨"hi", "yo", "", false, 0⟩] := by
    rw [testModelWithExamples, testModelAux, h1, h2]
    rfl
  have h := calculateMetrics_confusion_degenerate [w1Ex] (fun _ => ChatResp.fail)
    (by rw [hres]; simp)
  have hall : ∀ r ∈ testModelWithExamples [w1Ex] (fun _ => ChatResp.fail),
      ¬ ((7 : ℚ)/10 ≤ r.similarity) := by
    rw [hres]
    intro r hr
    rw [List.mem_singleton] at hr
    subst hr
    norm_num
  obtain ⟨ha, hb, -, hd⟩ := h
  exact ⟨ha, hb, (hd hall).1, (hd hall).2.1, (hd hall).2.2⟩

theorem length_dropWhile_le (p : Char → Bool) (l : List Char) :
    (l.dropWhile p).length ≤ l.length := by
  induction l with
  | nil => simp [List.dropWhile]
  | cons c rest ih =>
    rw [List.dropWhile]
    split
    · exact le_trans ih (by simp)
    · simp

theorem dropWhile_eq_self_of_length {p : Char → Bool} {l : List Char}
    (h : (l.dropWhile p).length = l.length) : l.dropWhile p = l := by
  cases l with
  | nil => simp [List.dropWhile]
  | cons c rest =>
    rw [List.dropWhile] at h ⊢
    split at h
    · exact absurd h (by have := length_dropWhile_le p rest; simp; omega)
    · rfl

theorem head_not_ws_of_dropWhile_eq {l : List Char}
    (h : l.dropWhile Char.isWhitespace = l) :
    ∀ c, l.head? = some c → c.isWhitespace = false := by
  intro c hc
  cases l with
  | nil => simp at hc
  | cons a rest =>
    rw [List.head?_cons] at hc
    injection hc with hc
    subst hc
    rw [List.dropWhile] at h
    by_cases hw : a.isWhitespace
    · simp only [hw] at h
      have h1 := length_dropWhile_le Char.isWhitespace rest
      have h2 := congrArg List.length h
      simp at h2
      omega
    · simpa using hw

/-- A trim fixed point drops nothing on either side. -/
theorem jsTrim_fix_elim {t : String} (ht : jsTrim t = t) :
    t.data.dropWhile Char.isWhitespace = t.data ∧
    t.data.reverse.dropWhile Char.isWhitespace = t.data.reverse := by
  have hd : ((t.data.dropWhile Char.isWhitespace).reverse.dropWhile
      Char.isWhitespace).reverse = t.data := congrArg String.data ht
  have l1 := length_dropWhile_le Char.isWhitespace t.data
  have l2 := length_dropWhile_le Char.isWhitespace
    (t.data.dropWhile Char.isWhitespace).reverse
  have hlen := congrArg List.length hd
  simp only [List.length_reverse] at hlen l2
  have e1 : (t.data.dropWhile Char.isWhitespace).length = t.data.length := by omega
  have e1' : t.data.dropWhile Char.isWhitespace = t.data :=
    dropWhile_eq_self_of_length e1
  refine ⟨e1', ?_⟩
  rw [e1'] at hd
  have : t.data.reverse.dropWhile Char.isWhitespace = t.data.reverse := by
    have := congrArg List.reverse hd
    simpa using this
  exact this

theorem string_mk_ne_empty {l : List Char} (h : l ≠ []) : String.mk l ≠ "" := by
  intro he
  exact h (by simpa using congrArg String.data he)

theorem splitWsAux_ne_empty :
    ∀ (l : List Char),
      (∀ c, l.getLast? = some c → c.isWhitespace = false) →
      ((∀ (cur : List Char), cur ≠ [] → ∀ w ∈ splitWsAux l (some cur), w ≠ "") ∧
       (l ≠ [] → ∀ w ∈ splitWsAux l none, w ≠ "")) := by
  intro l
  induction l with
  | nil =>
    intro _
    constructor
    · intro cur hcur w hw
      rw [splitWsAux, List.mem_singleton] at hw
      subst hw
      exact string_mk_ne_empty (by simpa using hcur)
    · intro h
      exact absurd rfl h
  | cons c rest ih =>
    intro hlast
    have hlast' : ∀ x, rest.getLast? = some x → x.isWhitespace = false := by
      intro x hx
      cases rest with
      | nil => simp at hx
      | cons b r => exact hlast x (by rw [List.getLast?_cons_cons]; exact hx)
    have hrest_ne : c.isWhitespace = true → rest ≠ [] := by
      intro hws he
      subst he
      have hl := hlast c (by simp)
      rw [hl] at hws
      exact Bool.noConfusion hws
    constructor
    · intro cur hcur w hw
      rw [splitWsAux] at hw
      by_cases hws : c.isWhitespace
      · rw [if_pos hws] at hw
        rcases List.mem_cons.mp hw with h | h
        · subst h
          exact string_mk_ne_empty (by simpa using hcur)
        · exact (ih hlast').2 (hrest_ne hws) w h
      · rw [if_neg hws] at hw
        exact (ih hlast').1 (c :: cur) (by simp) w hw
    · intro _ w hw
      rw [splitWsAux] at hw
      by_cases hws : c.isWhitespace
      · rw [if_pos hws] at hw
        exact (ih hlast').2 (hrest_ne hws) w hw
      · rw [if_neg hws] at hw
        exact (ih hlast').1 [c] (by simp) w hw

/-- On a nonempty text with no leading or trailing whitespace, the
JavaScript split produces no empty boundary token. -/
theorem jsSplitWs_ne_empty {t : String} (ht : jsTrim t = t) (hne : t ≠ "") :
    ∀ w ∈ jsSplitWs t, w ≠ "" := by
  obtain ⟨h1, h2⟩ := jsTrim_fix_elim ht
  have hdne : t.data ≠ [] := by
    intro he
    exact hne (string_data_inj (by simpa using he))
  cases hd : t.data with
  | nil => exact absurd hd hdne
  | cons c rest =>
    have hhead : c.isWhitespace = false :=
      head_not_ws_of_dropWhile_eq h1 c (by rw [hd]; rfl)
    have hlast' : ∀ x, rest.getLast? = some x → x.isWhitespace = false := by
      intro x hx
      apply head_not_ws_of_dropWhile_eq h2 x
      rw [List.head?_reverse, hd]
      cases rest with
      | nil => simp at hx
      | cons b r => rw [List.getLast?_cons_cons]; exact hx
    intro w hw
    rw [jsSplitWs, hd, splitWsAux, if_neg (by simp [hhead])] at hw
    exact (splitWsAux_ne_empty rest hlast').1 [c] (by simp) w hw

/-- When both texts are (after lower-casing) nonempty and free of boundary
whitespace, the token-set overlap of `calculateSimilarity` coincides with
the word-set Jaccard coefficient described by the spec. -/
theorem calculateSimilarity_eq_specJaccard {s1 s2 : String}
    (h1 : jsTrim (jsToLower s1) = jsToLower s1) (h1n : jsToLower s1 ≠ "")
    (h2 : jsTrim (jsToLower s2) = jsToLower s2) (h2n : jsToLower s2 ≠ "") :
    calculateSimilarity s1 s2 = specJaccard s1 s2 := by
  have e1 : specWords s1 = jsSplitWs (jsToLower s1) := by
    rw [specWords]
    apply List.filter_eq_self.mpr
    intro w hw
    simpa using jsSplitWs_ne_empty h1 h1n w hw
  have e2 : specWords s2 = jsSplitWs (jsToLower s2) := by
    rw [specWords]
    apply List.filter_eq_self.mpr
    intro w hw
    simpa using jsSplitWs_ne_empty h2 h2n w hw
  have ep : specParts s1 s2 = simParts s1 s2 := by
    rw [specParts, simParts, wordSet, wordSet, e1, e2]
  rw [calculateSimilarity, specJaccard, ep]

theorem testModelAux_spec (resp : Nat → ChatResp) (hOk : ∀ j, resp j ≠ .fail) :
    ∀ (es : List TrainEx) (k : Nat),
      (∀ e ∈ es, (e.messages.find? (fun m => m.role == "user")).isSome ∧
        (e.messages.find? (fun m => m.role == "assistant")).isSome) →
      (testModelAux resp es k).length = es.length ∧
      ∀ r ∈ testModelAux resp es k,
        r.similarity = calculateSimilarity r.expected r.predicted ∧
        (r.correct = true ↔ (7 : ℚ)/10 ≤ r.similarity) := by
  intro es
  induction es with
  | nil => intro k _; simp [testModelAux]
  | cons e rest ih =>
    intro k hUA
    obtain ⟨hu, ha⟩ := hUA e (List.mem_cons_self e rest)
    obtain ⟨um, h1⟩ := Option.isSome_iff_exists.mp hu
    obtain ⟨am, h2⟩ := Option.isSome_iff_exists.mp ha
    have hrest := ih (k + 1) (fun x hx => hUA x (List.mem_cons_of_mem e hx))
    rw [testModelAux, h1, h2]
    dsimp only
    cases hk : resp k with
    | ok c =>
      constructor
      · simpa using hrest.1
      · intro r hr
        rcases List.mem_cons.mp hr with h | h
        · subst h
          exact ⟨rfl, decide_eq_true_iff⟩
        · exact hrest.2 r h
    | fail => exact absurd hk (hOk k)

/-- C9 (amended): in an evaluation run over test examples that each contain
a user and an assistant message and whose model calls all succeed, there is
one result per example; each result's similarity is the token-set overlap
`calculateSimilarity` of its expected and predicted texts — which equals the
word-set Jaccard coefficient whenever both texts are (lower-cased) nonempty
and free of leading/trailing whitespace, but can differ otherwise because
the JavaScript split yields empty boundary tokens; a result is marked
correct exactly when its similarity is at least 0.7; and the reported
accuracy is (number correct) / (number of results), e.g. 7 of 10 gives 0.7. -/
theorem testModel_similarity_spec (examples : List TrainEx) (resp : Nat → ChatResp)
    (hUA : ∀ e ∈ examples, (e.messages.find? (fun m => m.role == "user")).isSome ∧
      (e.messages.find? (fun m => m.role == "assistant")).isSome)
    (hOk : ∀ j, resp j ≠ ChatResp.fail)
    (hne : examples ≠ []) :
    (testModelWithExamples examples resp).length = examples.length ∧
    (∀ r ∈ testModelWithExamples examples resp,
      r.similarity = calculateSimilarity r.expected r.predicted ∧
      (r.correct = true ↔ (7 : ℚ)/10 ≤ r.similarity)) ∧
    (calculateMetrics (testModelWithExamples examples resp)).accuracy
      = (((testModelWithExamples examples resp).filter (fun r => r.correct)).length : ℚ)
          / ((testModelWithExamples examples resp).length : ℚ) ∧
    ∀ r ∈ testModelWithExamples examples resp,
      jsTrim (jsToLower r.expected) = jsToLower r.expected → jsToLower r.expected ≠ "" →
      jsTrim (jsToLower r.predicted) = jsToLower r.predicted → jsToLower r.predicted ≠ "" →
      r.similarity = specJaccard r.expected r.predicted := by
  have hspec := testModelAux_spec resp hOk examples 0 hUA
  have hlen : (testModelWithExamples examples resp).length = examples.length := hspec.1
  have htot : ¬ ((testModelWithExamples examples resp).length = 0) := by
    rw [hlen]
    simpa [List.length_eq_zero] using hne
  refine ⟨hlen, hspec.2, ?_, ?_⟩
  · unfold calculateMetrics
    rw [if_neg htot]
  · intro r hr he1 he2 hp1 hp2
    rw [(hspec.2 r hr).1]
    exact calculateSimilarity_eq_specJaccard he1 he2 hp1 hp2

/-- Counterexample to C9 as stated: with expected text `"a"` and predicted
text `" a"` (a leading space, as a model response may well contain), the
computed similarity is 1/2 — not the word-set Jaccard coefficient, which is
1, because the JavaScript split turns the leading whitespace into an empty
boundary token that enlarges the union; the example is even marked incorrect
although its word sets agree exactly. -/
theorem calculateSimilarity_boundary_ws_cex :
    calculateSimilarity "a" " a" = 1/2 ∧
    specJaccard "a" " a" = 1 ∧
    calculateSimilarity "a" " a" ≠ specJaccard "a" " a" ∧
    ¬ ((7 : ℚ)/10 ≤ calculateSimilarity "a" " a") ∧
    ((7 : ℚ)/10 ≤ specJaccard "a" " a") := by
  have hp : simParts "a" " a" = (1, 2) := by decide
  have hq : specParts "a" " a" = (1, 1) := by decide
  refine ⟨?_, ?_, ?_, ?_, ?_⟩
  · rw [calculateSimilarity, hp]; norm_num
  · rw [specJaccard, hq]; norm_num
  · rw [calculateSimilarity, hp, specJaccard, hq]; norm_num
  · rw [calculateSimilarity, hp]; norm_num
  · rw [specJaccard, hq]; norm_num

/-- Witness for C9: the amended theorem applied to the one-example run where
the model answers the expected text back. -/
theorem testModel_similarity_spec_witness :
    (testModelWithExamples [w1Ex] (fun _ => ChatResp.ok (some "yo"))).length
      = [w1Ex].length ∧
    (∀ r ∈ testModelWithExamples [w1Ex] (fun _ => ChatResp.ok (some "yo")),
      r.similarity = calculateSimilarity r.expected r.predicted ∧
      (r.correct = true ↔ (7 : ℚ)/10 ≤ r.similarity)) ∧
    (calculateMetrics (testModelWithExamples [w1Ex] (fun _ => ChatResp.ok (some "yo")))).accuracy
      = (((testModelWithExamples [w1Ex] (fun _ => ChatResp.ok (some "yo"))).filter
            (fun r => r.correct)).length : ℚ)
          / ((testModelWithExamples [w1Ex] (fun _ => ChatResp.ok (some "yo"))).length : ℚ) ∧
    ∀ r ∈ testModelWithExamples [w1Ex] (fun _ => ChatResp.ok (some "yo")),
      jsTrim (jsToLower r.expected) = jsToLower r.expected → jsToLower r.expected ≠ "" →
      jsTrim (jsToLower r.predicted) = jsToLower r.predicted → jsToLower r.predicted ≠ "" →
      r.similarity = specJaccard r.expected r.predicted :=
  testModel_similarity_spec [w1Ex] (fun _ => ChatResp.ok (some "yo"))
    (by decide) (fun _ h => ChatResp.noConfusion h) (by simp)

/-- A message as parsed from the provider JSON in `generateBatch`
(fields may be absent). -/
structure RawMsg where
  role : Option String
  content : Option String
deriving DecidableEq, Repr

/-- An example as parsed from the provider JSON in `generateBatch`. -/
structure RawEx where
  messages : Option (List RawMsg)
deriving DecidableEq, Repr

/-- The validation/normalization loop of `generateBatch` for one parsed
example: default missing roles to `user` and missing content to the empty
string, keep only messages with non-empty content and a known role, then
require at least one `user`, at least one `assistant`, and two or more
messages. -/
def normalizeRawExample (e : RawEx) : Option TrainEx :=
  match e.messages with
  | none => none
  | some msgs =>
    let normalized : List Msg :=
      (msgs.map (fun m => Msg.mk (jsOr m.role "user") (jsOr m.content ""))).filter
        (fun m => !(m.content == "") &&
          (m.role == "user" || m.role == "assistant" || m.role == "system"))
    if normalized.any (fun m => m.role == "user") &&
       normalized.any (fun m => m.role == "assistant") &&
       decide (2 ≤ normalized.length)
    then some ⟨normalized⟩ else none

/-- The five question templates of `generateFallbackExamples`, with
`\x7btopic\x7d` already replaced by the title. -/
def fallbackQuestions (title : String) : List String :=
  ["What is " ++ title ++ "?",
   "Tell me about " ++ title,
   "Can you explain " ++ title ++ "?",
   "How does " ++ title ++ " work?",
   "What are the benefits of " ++ title ++ "?"]

/-- Fallback generator `generateFallbackExamples`: `count` deterministic template examples
seeded from title and description. -/
def generateFallbackExamples (title description : String) (count : Nat) : List TrainEx :=
  (List.range count).map (fun i =>
    ⟨[⟨"user", (fallbackQuestions title).getD (i % 5) ""⟩,
      ⟨"assistant", description ++ " This is what " ++ title ++ " is about."⟩]⟩)

/-- Batch generator `generateBatch`: `resp = none` models any hard failure (timeout,
non-200 response, unparsable content), which falls back to the template
generator; `resp = some exs` is the `examples` array extracted by the
permissive parsing chain, every entry of which is validated and normalized.
No truncation to `count` takes place anywhere. -/
def generateBatch (title description : String) (count : Nat)
    (resp : Option (List RawEx)) : List TrainEx :=
  match resp with
  | none => generateFallbackExamples title description count
  | some exs => exs.filterMap normalizeRawExample

def c8Ex1 : RawEx := ⟨some [⟨some "user", some "a"⟩, ⟨some "assistant", some "b"⟩]⟩

def c8Ex2 : RawEx := ⟨some [⟨some "user", some "c"⟩, ⟨some "assistant", some "d"⟩]⟩

/-- Counterexample to C8 as stated: a provider response carrying two valid
examples makes `generateBatch` with `count = 1` return two examples —
more than `count`. -/
theorem generateBatch_over_count_cex :
    (generateBatch "t" "d" 1 (some [c8Ex1, c8Ex2])).length = 2 ∧
    ¬ ((generateBatch "t" "d" 1 (some [c8Ex1, c8Ex2])).length ≤ 1) := by
  constructor
  · decide
  · decide

/-- C8 (amended): `generateBatch` returns at most one output example per
response example (so at most as many as the parsed response holds, with no
truncation to `count`), and on hard failure the fallback returns exactly
`count` examples; the output exceeds `count` whenever the response contains
more than `count` valid examples. -/
theorem generateBatch_length (title description : String) (count : Nat) :
    (∀ exs : List RawEx,
      (generateBatch title description count (some exs)).length ≤ exs.length) ∧
    (generateBatch title description count none).length = count := by
  constructor
  · intro exs
    simpa [generateBatch] using List.length_filterMap_le normalizeRawExample exs
  · simp [generateBatch, generateFallbackExamples]

/-- The local-status update of the fine-tune reconciliation
(`status: openaiJob.status || job.status`): the provider-reported status is
copied verbatim; absent or empty reports keep the stored status. -/
def reconcileStatusUpdate (localStatus : String) (remote : Option String) : String :=
  match remote with
  | none => localStatus
  | some r => if r = "" then localStatus else r

/-- Position of a status in the documented lifecycle
`pending → validating_files → running → terminal`. -/
def statusRank (s : String) : Nat :=
  if s = "pending" then 0
  else if s = "validating_files" then 1
  else if s = "running" then 2
  else 3

/-- Counterexample to C4 as stated: a provider report of `pending` while the
stored status is `running` makes the stored status regress to `pending` —
no monotonicity guard exists in the reconciliation. -/
theorem fineTuneStatus_regression_cex :
    reconcileStatusUpdate "running" (some "pending") = "pending" ∧
    statusRank "pending" < statusRank "running" := by
  constructor
  · decide
  · decide

/-- C4 (amended): the stored status mirrors the provider-reported status
exactly (keeping the current one when the report is absent or empty); in
particular it never regresses provided the provider-reported status is at
least as advanced as the stored one, but nothing locally prevents a
regression when the provider reports an earlier status. -/
theorem reconcileStatusUpdate_spec (s x : String) (hne : x ≠ "") :
    reconcileStatusUpdate s (some x) = x ∧
    reconcileStatusUpdate s none = s ∧
    reconcileStatusUpdate s (some "") = s ∧
    (statusRank s ≤ statusRank x →
      statusRank s ≤ statusRank (reconcileStatusUpdate s (some x))) := by
  refine ⟨?_, rfl, rfl, ?_⟩
  · simp [reconcileStatusUpdate, hne]
  · intro hr
    simpa [reconcileStatusUpdate, hne] using hr

/-- Witness for C4 (amended): a `pending` job observing `running`. -/
theorem reconcileStatusUpdate_spec_witness :
    reconcileStatusUpdate "pending" (some "running") = "running" ∧
    reconcileStatusUpdate "pending" none = "pending" ∧
    reconcileStatusUpdate "pending" (some "") = "pending" ∧
    statusRank "pending" ≤ statusRank (reconcileStatusUpdate "pending" (some "running")) :=
  ⟨(reconcileStatusUpdate_spec "pending" "running" (by decide)).1,
   (reconcileStatusUpdate_spec "pending" "running" (by decide)).2.1,
   (reconcileStatusUpdate_spec "pending" "running" (by decide)).2.2.1,
   (reconcileStatusUpdate_spec "pending" "running" (by decide)).2.2.2 (by decide)⟩

/-- The `error` object of a provider error response
(`message`/`code`/`type`/`param`; `type` is called `etype` here, the source
name being reserved). -/
structure ErrBody where
  message : Option String
  code : Option String
  etype : Option String
  param : Option String
deriving DecidableEq, Repr

/-- The payload of a 200 submission response (`id`, `status`). -/
structure OkPayload where
  id : Option String
  status : Option String
deriving DecidableEq, Repr

/-- The provider's reply to a fine-tune job submission: a non-200 response
(whose JSON body may itself fail to parse — `none` — or parse to an object
with an optional `error` field), a 200 response with parsed payload, or a
thrown error (network failure, body read failure). -/
inductive ProviderSubmitResp where
  | httpError (status : Nat) (jsonBody : Option (Option ErrBody))
  | httpOk (payload : OkPayload)
  | thrown (msg : String)
deriving DecidableEq, Repr

/-- Outcome of the submission handler: the persisted job status and error
message, the stored provider job id, the owning bot's status, and whether an
error response was returned to the caller. -/
structure SubmitResult where
  jobStatus : String
  jobErrorMessage : Option String
  openai_job_id : Option String
  botStatus : String
  returnedError : Bool
deriving DecidableEq, Repr

/-- The submission flow of `POST /api/fine-tune/jobs` from the point where
the job row exists with status `pending` and the bot has been set to
`training` (line 269), covering the provider call and its error handling
(lines 277-434): a non-200 response marks the job `failed` (message from the
response's `error.message`, with fallbacks) and the bot `inactive`; a 200
response without a usable `id` marks the job `failed` and returns the error
but leaves the bot untouched (still `training`); a thrown error marks the
job `failed`, the bot `inactive`, and re-throws (the outer handler returns
the error); otherwise the provider id and reported status (default
`pending`) are stored and the job is returned. -/
def submitFineTuneJob (resp : ProviderSubmitResp) : SubmitResult :=
  match resp with
  | .httpError st jsonBody =>
    let errorDetails : ErrBody :=
      match jsonBody with
      | none => ⟨some ("HTTP " ++ toString st), some (toString st), none, none⟩
      | some b => b.getD ⟨none, none, none, none⟩
    { jobStatus := "failed"
      jobErrorMessage := some (jsOr errorDetails.message "Failed to create fine-tuning job")
      openai_job_id := none
      botStatus := "inactive"
      returnedError := true }
  | .httpOk payload =>
    if jsFalsy payload.id then
      { jobStatus := "failed"
        jobErrorMessage := some "Invalid response from OpenAI API"
        openai_job_id := none
        botStatus := "training"
        returnedError := true }
    else
      { jobStatus := jsOr payload.status "pending"
        jobErrorMessage := none
        openai_job_id := payload.id
        botStatus := "training"
        returnedError := false }
  | .thrown msg =>
    { jobStatus := "failed"
      jobErrorMessage := some msg
      openai_job_id := none
      botStatus := "inactive"
      returnedError := true }

theorem jsOr_ne_empty (v : Option String) {dflt : String} (h : dflt ≠ "") :
    jsOr v dflt ≠ "" := by
  cases v with
  | none => simpa [jsOr] using h
  | some s =>
    rw [jsOr]
    split
    · exact h
    · assumption

/-- Counterexample to C5 as stated: a 200 submission response with an
id-less payload marks the job `failed` and surfaces the error, but the
owning bot is left in `training`, not set to `inactive`. -/
theorem submit_malformed_payload_cex :
    (submitFineTuneJob (.httpOk ⟨none, none⟩)).jobStatus = "failed" ∧
    (submitFineTuneJob (.httpOk ⟨none, none⟩)).returnedError = true ∧
    (submitFineTuneJob (.httpOk ⟨none, none⟩)).jobErrorMessage
      = some "Invalid response from OpenAI API" ∧
    (submitFineTuneJob (.httpOk ⟨none, none⟩)).botStatus = "training" ∧
    ¬ ((submitFineTuneJob (.httpOk ⟨none, none⟩)).botStatus = "inactive") := by
  refine ⟨rfl, rfl, rfl, rfl, by decide⟩

/-- C5 (amended): on a non-success HTTP status or a thrown provider error
the job record is set to `failed` with a populated error message, the owning
bot is reverted to `inactive`, and the error is surfaced to the caller
synchronously; on a success response with an id-less payload the job is set
to `failed` with a populated message and the error is surfaced, but the bot
stays `training`. -/
theorem submitFineTuneJob_provider_error (resp : ProviderSubmitResp) :
    (∀ st jsonBody, resp = ProviderSubmitResp.httpError st jsonBody →
      (submitFineTuneJob resp).jobStatus = "failed" ∧
      (submitFineTuneJob resp).jobErrorMessage ≠ none ∧
      (submitFineTuneJob resp).jobErrorMessage ≠ some "" ∧
      (submitFineTuneJob resp).botStatus = "inactive" ∧
      (submitFineTuneJob resp).returnedError = true) ∧
    (∀ msg, resp = ProviderSubmitResp.thrown msg →
      (submitFineTuneJob resp).jobStatus = "failed" ∧
      (submitFineTuneJob resp).jobErrorMessage = some msg ∧
      (submitFineTuneJob resp).botStatus = "inactive" ∧
      (submitFineTuneJob resp).returnedError = true) ∧
    (∀ p, resp = ProviderSubmitResp.httpOk p → jsFalsy p.id = true →
      (submitFineTuneJob resp).jobStatus = "failed" ∧
      (submitFineTuneJob resp).jobErrorMessage = some "Invalid response from OpenAI API" ∧
      (submitFineTuneJob resp).returnedError = true ∧
      (submitFineTuneJob resp).botStatus = "training") := by
  refine ⟨?_, ?_, ?_⟩
  · intro st jsonBody h
    subst h
    refine ⟨rfl, ?_, ?_, rfl, rfl⟩
    · simp [submitFineTuneJob]
    · simp only [submitFineTuneJob, Option.some.injEq, ne_eq]
      intro hc
      exact jsOr_ne_empty _ (by decide) hc
  · intro msg h
    subst h
    exact ⟨rfl, rfl, rfl, rfl⟩
  · intro p h hid
    subst h
    rw [submitFineTuneJob]
    rw [if_pos hid]
    exact ⟨rfl, rfl, rfl, rfl⟩

/-- Witness for C5 (amended): a 500 response with unparsable body. -/
theorem submitFineTuneJob_provider_error_witness :
    (submitFineTuneJob (.httpError 500 none)).jobStatus = "failed" ∧
    (submitFineTuneJob (.httpError 500 none)).jobErrorMessage ≠ none ∧
    (submitFineTuneJob (.httpError 500 none)).jobErrorMessage ≠ some "" ∧
    (submitFineTuneJob (.httpError 500 none)).botStatus = "inactive" ∧
    (submitFineTuneJob (.httpError 500 none)).returnedError = true :=
  (submitFineTuneJob_provider_error (.httpError 500 none)).1 500 none rfl

/-- The Fine-Tune Job row fields involved in the enhancement-chain
propagation. -/
structure FtJobRec where
  job_id : String
  parent_job_id : Option String
  fine_tuned_model_id : Option String
  status : String
deriving DecidableEq, Repr

/-- The parent-propagation step of the reconciliation's `succeeded` branch
(events route, lines 388-467): when the reconciled job reports `succeeded`
with a usable fine-tuned model id and carries a `parent_job_id`, the row
with that id gets its `fine_tuned_model_id` set to the new model; no other
row of the store is touched (in particular not the grandparent's). -/
def propagateModelToParent (store : List FtJobRec) (job : FtJobRec)
    (remoteStatus : String) (fineTunedModelId : Option String) : List FtJobRec :=
  if remoteStatus == "succeeded" && !(jsFalsy fineTunedModelId) then
    match job.parent_job_id with
    | some pid =>
      store.map (fun x =>
        if x.job_id == pid then { x with fine_tuned_model_id := fineTunedModelId } else x)
    | none => store
  else store

/-- C6: when reconciliation observes a job with a parent reach `succeeded`
with resulting model id `m`, the parent row's `fine_tuned_model_id` becomes
`m`, and every row with a different id — the grandparent included — is
unchanged. -/
theorem parent_model_propagation (store : List FtJobRec) (job : FtJobRec)
    (pid m : String) (hp : job.parent_job_id = some pid) (hm : m ≠ "") :
    (∀ j ∈ store, j.job_id = pid →
      { j with fine_tuned_model_id := some m }
        ∈ propagateModelToParent store job "succeeded" (some m)) ∧
    (∀ j ∈ store, j.job_id ≠ pid →
      j ∈ propagateModelToParent store job "succeeded" (some m)) ∧
    (propagateModelToParent store job "succeeded" (some m)).length = store.length := by
  have hcond : (("succeeded" : String) == "succeeded" && !(jsFalsy (some m))) = true := by
    simp [jsFalsy, hm]
  rw [propagateModelToParent, if_pos hcond, hp]
  refine ⟨?_, ?_, by simp⟩
  · intro j hj hid
    have hx : (fun x =>
        if x.job_id == pid then { x with fine_tuned_model_id := some m } else x) j
        = { j with fine_tuned_model_id := some m } := by
      simp [hid]
    rw [← hx]
    exact List.mem_map_of_mem _ hj
  · intro j hj hid
    have hx : (fun x =>
        if x.job_id == pid then { x with fine_tuned_model_id := some m } else x) j = j := by
      simp [hid]
    rw [← hx]
    exact List.mem_map_of_mem _ hj

def ftG : FtJobRec := ⟨"g", none, some "M0", "succeeded"⟩

def ftP : FtJobRec := ⟨"p", some "g", some "M1", "succeeded"⟩

def ftC : FtJobRec := ⟨"c", some "p", none, "running"⟩

/-- Witness for C6: a three-row chain grandparent/parent/child; the child's
success with model `M2` rewrites the parent's model id and leaves the
grandparent row intact. -/
theorem parent_model_propagation_witness :
    ({ ftP with fine_tuned_model_id := some "M2" } : FtJobRec)
      ∈ propagateModelToParent [ftG, ftP, ftC] ftC "succeeded" (some "M2") ∧
    ftG ∈ propagateModelToParent [ftG, ftP, ftC] ftC "succeeded" (some "M2") ∧
    (propagateModelToParent [ftG, ftP, ftC] ftC "succeeded" (some "M2")).length = 3 :=
  have h := parent_model_propagation [ftG, ftP, ftC] ftC "p" "M2" rfl (by decide)
  ⟨h.1 ftP (by simp) rfl, h.2.1 ftG (by simp) (by decide), by rw [h.2.2]; rfl⟩
